import Mathlib

set_option maxRecDepth 2000

/-!
Verification of the CRRLpy line-shape and optical-depth model engine.

Shallow embedding of the relevant functions of `crrlpy/crrls.py` and
`crrlpy/models/rrlmod.py`.  Pure numeric functions over machine doubles are
embedded over `ℝ` (or over `ℚ` where every operation involved is exact
rational arithmetic); fallible code is embedded with `Option`/`Except`
result types whose error constructors model the Python exceptions that can
escape the function.
-/

namespace CRRLpy

/-! ## Parameter codec (`crrlpy/models/rrlmod.py`: `str2val`, `val2str`)

`str2val` calls Python's builtin `float` on each token of `str.split('d')`.
`float` is external library code; `pyFloat?` models the subset of its
grammar reachable here: optional sign, digits with optional decimal point,
optional `e`/`E` exponent.  (The builtin additionally accepts surrounding
whitespace, `inf`/`nan` and digit underscores; none of those occur in the
grid-key strings this codec is used for.)  A `none` result models a raised
`ValueError`. -/

/-- Numeric value of a list of decimal digit characters (most significant
first), as read by Python's float parser. -/
def digitsToNat (cs : List Char) : ℕ :=
  cs.foldl (fun a c => 10 * a + (c.toNat - 48)) 0

/-- Model of Python's builtin `float(s)` on the token grammar reachable from
`str2val`: `[+|-] (digits [. digits] | . digits) [(e|E) [+|-] digits]`.
`none` models a raised `ValueError`. -/
def pyFloat? (s : String) : Option ℚ :=
  let cs := s.data
  let sgncs : ℚ × List Char :=
    match cs with
    | '+' :: t => (1, t)
    | '-' :: t => (-1, t)
    | _ => (1, cs)
  let ipcs := sgncs.2.span Char.isDigit
  let fpcs : List Char × List Char :=
    match ipcs.2 with
    | '.' :: t => t.span Char.isDigit
    | _ => ([], ipcs.2)
  if ipcs.1.isEmpty && fpcs.1.isEmpty then none
  else
    let mant : ℚ :=
      sgncs.1 * ((digitsToNat ipcs.1 : ℚ) + (digitsToNat fpcs.1 : ℚ) / 10 ^ fpcs.1.length)
    match fpcs.2 with
    | [] => some mant
    | c :: t =>
      if c = 'e' ∨ c = 'E' then
        let esgnt : ℤ × List Char :=
          match t with
          | '+' :: u => (1, u)
          | '-' :: u => (-1, u)
          | _ => (1, t)
        let edt := esgnt.2.span Char.isDigit
        if edt.1.isEmpty ∨ ¬ edt.2.isEmpty then none
        else some (mant * (10 : ℚ) ^ (esgnt.1 * (digitsToNat edt.1 : ℤ)))
      else none

/-- Exceptions that can escape the codec: `str2val` only catches
`ValueError`, so the `aux[1]` lookup can raise `IndexError`. -/
inductive PyErr where
  | indexError
deriving DecidableEq

/-- Model of `np.power(10., e)`.  In this development the exponent is always
integral; a non-integral exponent would give an irrational value outside
this rational embedding (that case is unreachable from every theorem below
and is mapped to `0`). -/
def np_pow10 (e : ℚ) : ℚ :=
  if e.den = 1 then (10 : ℚ) ^ e.num else 0

/-- `str2val` (rrlmod.py:1208-1230): split on `'d'`, map the float parser
over the tokens (a parse failure is a `ValueError`, caught, yielding the
sentinel `0`), then compute `aux[0] * np.power(10., aux[1])`.  When every
token parses but there is no second token, `aux[1]` raises an uncaught
`IndexError`. -/
def str2val (s : String) : Except PyErr ℚ :=
  let toks := (s.splitOn "d").map pyFloat?
  if toks.any (fun o => o.isNone) then Except.ok 0
  else
    match toks.reduceOption with
    | a0 :: a1 :: _ => Except.ok (a0 * np_pow10 a1)
    | _ => Except.error PyErr.indexError

/-- Fuel-driven base-10 logarithm on `ℕ` (`log10fuel n n` computes
`⌊log₁₀ n⌋` for `n ≥ 1`). -/
def log10fuel : ℕ → ℕ → ℕ
  | 0, _ => 0
  | fuel + 1, n => if n < 10 then 0 else log10fuel fuel (n / 10) + 1

/-- `⌊log₁₀ n⌋` for positive `n`. -/
def natLog10 (n : ℕ) : ℕ :=
  log10fuel n n

/-- `⌊log₁₀ v⌋` for a positive rational, modelling `np.floor(np.log10(val))`
exactly: the candidate digit-count difference is off by at most one and is
corrected by a single comparison. -/
def floorLog10 (v : ℚ) : ℤ :=
  let k : ℤ := (natLog10 v.num.toNat : ℤ) - (natLog10 v.den : ℤ)
  if v < (10 : ℚ) ^ k then k - 1 else k

/-- Left-pad a digit string with zeros to length `n`. -/
def padZeros (s : String) (n : ℕ) : String :=
  String.mk (List.replicate (n - s.length) '0') ++ s

/-- Decimal rendering of a positive rational mantissa with a terminating
decimal expansion, modelling Python's `"{0}".format(u)` for the float `u`
(e.g. `3/2 ↦ "1.5"`).  The minimal power `j` with `den ∣ 10^j` guarantees no
trailing zeros, matching the shortest-repr float formatting.  A
non-terminating denominator has no exact decimal form (Python would print a
17-digit repr); it is outside this model and unreachable below. -/
def decStr (u : ℚ) : String :=
  let j := ((List.range 41).find? (fun j => decide (u.den ∣ 10 ^ j))).getD 0
  let n := (u * (10 : ℚ) ^ j).num.toNat
  let ip := n / 10 ^ j
  let fp := n % 10 ^ j
  toString ip ++ "." ++ padZeros (toString fp) j

/-- `val2str` (rrlmod.py:1233-1254): `d = floor(log10 val)`,
`u = val / 10^d`; format as `"{u:.0f}d{d:.0f}"` when the mantissa is
integral (`u.is_integer()`), else `"{u}d{d:.0f}"`. -/
def val2str (v : ℚ) : String :=
  let d := floorLog10 v
  let u := v / (10 : ℚ) ^ d
  if u.den = 1 then toString u.num ++ "d" ++ toString d
  else decStr u ++ "d" ++ toString d

/-! ## `mdn` (rrlmod.py:1139-1167)

The source is a chain of independent `if dn == k:` statements with no final
`else`; the conditions are mutually exclusive, and when none matches the
final `return mdn_` raises `UnboundLocalError` (no value is returned).
`none` models that escaping exception. -/

/-- `M(Δn)` lookup table, Menzel (1968). -/
def mdn (dn : ℚ) : Option ℚ :=
  if dn = 1 then some 0.1908
  else if dn = 2 then some 0.02633
  else if dn = 3 then some 0.008106
  else if dn = 4 then some 0.003492
  else if dn = 5 then some 0.001812
  else none

/-! ## Pressure-broadening coefficients (crrls.py:954-1044)

`pressure_broad_coefs` builds two `scipy.interpolate.interp1d` linear
interpolators over a fixed 30-point temperature grid with
`bounds_error=True` (an argument outside the grid raises `ValueError`,
modelled as `none`).  All arithmetic involved is exact on the rational grid
values, so the embedding is over `ℚ`.  (The source also computes
`utils.best_match_indx(Te, te)` and discards the result; that dead store is
omitted.) -/

/-- Temperature grid (K) of the Salgado et al. (2017) coefficient table. -/
def teGrid : List ℚ :=
  [10, 20, 30, 40, 50, 60, 70, 80, 90,
   100, 200, 300, 400, 500, 600, 700,
   800, 900, 1000, 2000, 3000, 4000, 5000,
   6000, 7000, 8000, 9000, 10000, 20000, 30000]

/-- Tabulated `a` coefficients. -/
def aTable : List ℚ :=
  [-10.974098, -10.669695, -10.494541, -10.370271, -10.273172,
   -10.191374, -10.124309, -10.064037, -10.010153, -9.9613006,
   -9.6200366, -9.4001678, -9.2336349, -9.0848840, -8.9690170,
   -8.8686695, -8.7802238, -8.7012421, -8.6299908, -8.2718376,
   -8.0093937, -7.8344941, -7.7083367, -7.6126791, -7.5375720,
   -7.4770500, -7.4272885, -7.3857095, -7.1811733, -7.1132522]

/-- Tabulated `γ` coefficients. -/
def gammacTable : List ℚ :=
  [5.4821631, 5.4354009, 5.4071360, 5.3861013, 5.3689105,
   5.3535398, 5.3409679, 5.3290318, 5.3180304, 5.3077770,
   5.2283700, 5.1700702, 5.1224893, 5.0770049, 5.0408369,
   5.0086342, 4.9796105, 4.9532071, 4.9290080, 4.8063682,
   4.7057576, 4.6356118, 4.5831746, 4.5421547, 4.5090104,
   4.4815675, 4.4584053, 4.4385507, 4.3290786, 4.2814240]

/-- Piecewise-linear interpolation over knots sorted by abscissa, with the
`bounds_error=True` semantics of `scipy.interpolate.interp1d(..,
kind='linear')`: `none` outside `[x₀, x_last]`, exact linear interpolation
on each segment. -/
def interp1dLin : List (ℚ × ℚ) → ℚ → Option ℚ
  | [], _ => none
  | [(x0, y0)], x => if x = x0 then some y0 else none
  | (x0, y0) :: (x1, y1) :: rest, x =>
    if x < x0 then none
    else if x ≤ x1 then some (y0 + (y1 - y0) * (x - x0) / (x1 - x0))
    else interp1dLin ((x1, y1) :: rest) x

/-- `pressure_broad_coefs` (crrls.py:954-1044): bounds-checked linear
interpolation of `(a, γ)` over the 30-point temperature table; `none`
models the `ValueError` raised by `interp1d` outside `[10, 30000]` K. -/
def pressure_broad_coefs (Te : ℚ) : Option (ℚ × ℚ) :=
  match interp1dLin (teGrid.zip aTable) Te, interp1dLin (teGrid.zip gammacTable) Te with
  | some a, some g => some (a, g)
  | _, _ => none

/-! ## Line-shape functions over ℝ (crrlpy/crrls.py)

`numpy` double arithmetic is embedded over the real numbers; `np.sqrt` is
`Real.sqrt`, `np.exp` is `Real.exp`, `np.power` with an integral exponent is
monoid `^` and with the fractional exponent `5/2` is `Real.rpow`. -/

/-- Result of `dv_minus_doppler` / `dv_minus_doppler2`: the
negative-discriminant branch prints a message and returns the bare scalar
`0` (constructor `zero`); every other path returns the pair `(dL, ddL)`. -/
inductive DvRes where
  | zero
  | ok (dL ddL : ℝ)

/-- First component of a `DvRes` pair, if one was returned. -/
def DvRes.dL? : DvRes → Option ℝ
  | .zero => none
  | .ok l _ => some l

/-- The discriminant `d` computed by `dv_minus_doppler` (crrls.py:236),
with the local constants `a = 0.5346`, `b = 0.2166` inlined; the source
retypes this same expression inside the `ddL1`/`ddL2` formulas. -/
noncomputable def dvDisc (dV dD : ℝ) : ℝ :=
  (2 * 0.5346 * dV) ^ 2 - 4 * (0.2166 - 0.5346 * 0.5346) * (dD ^ 2 - dV ^ 2)

/-- `dv_minus_doppler` (crrls.py:219-257): solve the `voigt_fwhm` quadratic
for the Lorentz width `dL` given the total width `dV` and Doppler width
`dD`, select the root per `dL_m < dV`, and propagate the uncertainty.  Both
squared error terms are multiplied by `ddV`; `ddD` is accepted but unused,
exactly as in the source. -/
noncomputable def dv_minus_doppler (dV ddV dD ddD : ℝ) : DvRes :=
  if dvDisc dV dD < 0 then DvRes.zero
  else
    let dL_p := (-2 * 0.5346 * dV + Real.sqrt (dvDisc dV dD)) /
      (2 * (0.2166 - 0.5346 * 0.5346))
    let dL_m := (-2 * 0.5346 * dV - Real.sqrt (dvDisc dV dD)) /
      (2 * (0.2166 - 0.5346 * 0.5346))
    let ddL2 := 4 * (0.2166 - 0.5346 * 0.5346) * dD / Real.sqrt (dvDisc dV dD)
    if dL_m < dV then
      let ddL1 := (-2 * 0.5346 - (0.5346 * 0.5346 * dV +
        8 * (0.2166 - 0.5346 * 0.5346) * dV) / Real.sqrt (dvDisc dV dD)) /
        (2 * (0.2166 - 0.5346 * 0.5346))
      DvRes.ok dL_m (Real.sqrt ((ddL1 * ddV) ^ 2 + (ddL2 * ddV) ^ 2))
    else
      let ddL1 := (-2 * 0.5346 + (0.5346 * 0.5346 * dV +
        8 * (0.2166 - 0.5346 * 0.5346) * dV) / Real.sqrt (dvDisc dV dD)) /
        (2 * (0.2166 - 0.5346 * 0.5346))
      DvRes.ok dL_p (Real.sqrt ((ddL1 * ddV) ^ 2 + (ddL2 * ddV) ^ 2))

/-- The discriminant `d` computed by `dv_minus_doppler2` (crrls.py:278-280),
with `den = a*a - b` and `dif = dV² - dD²` substituted. -/
noncomputable def dv2Disc (dV dD : ℝ) : ℝ :=
  (0.5346 * dV) ^ 2 - (0.5346 * 0.5346 - 0.2166) * (dV ^ 2 - dD ^ 2)

/-- `dv_minus_doppler2` (crrls.py:260-300): the independently derived
`den`/`dif` form of the same root selection, with its own propagated
uncertainty expressions.  Again both error terms are multiplied by `ddV`
and `ddD` is unused. -/
noncomputable def dv_minus_doppler2 (dV ddV dD ddD : ℝ) : DvRes :=
  if dv2Disc dV dD < 0 then DvRes.zero
  else
    let dL_p := (0.5346 * dV + Real.sqrt (dv2Disc dV dD)) /
      (0.5346 * 0.5346 - 0.2166)
    let dL_m := (0.5346 * dV - Real.sqrt (dv2Disc dV dD)) /
      (0.5346 * 0.5346 - 0.2166)
    let ddL2 := dD / Real.sqrt (dv2Disc dV dD)
    if dL_m < dV then
      let ddL1 := (0.5346 + (0.5346 * 0.5346 * dV -
        dV * (0.5346 * 0.5346 - 0.2166)) / Real.sqrt (dv2Disc dV dD)) /
        (0.5346 * 0.5346 - 0.2166)
      DvRes.ok dL_m (Real.sqrt ((ddL1 * ddV) ^ 2 + (ddL2 * ddV) ^ 2))
    else
      let ddL1 := (0.5346 - (0.5346 * 0.5346 * dV -
        dV * (0.5346 * 0.5346 - 0.2166)) / Real.sqrt (dv2Disc dV dD)) /
        (0.5346 * 0.5346 - 0.2166)
      DvRes.ok dL_p (Real.sqrt ((ddL1 * ddV) ^ 2 + (ddL2 * ddV) ^ 2))

/-- `voigt_fwhm` (crrls.py:1283-1300): the closed-form Voigt FWHM
approximation `0.5346 dL + √(0.2166 dL² + dD²)`. -/
noncomputable def voigt_fwhm (dD dL : ℝ) : ℝ :=
  0.5346 * dL + Real.sqrt (0.2166 * dL ^ 2 + dD ^ 2)

/-- `voigt_peak` (crrls.py:1333-1354).  `w` is the real part of the
Faddeeva function on the imaginary axis, `y ↦ Re[wofz(i y)]`
(`scipy.special.wofz`, external library code, passed as a parameter). -/
noncomputable def voigt_peak (w : ℝ → ℝ) (A alphaD alphaL : ℝ) : ℝ :=
  A / alphaD * Real.sqrt (Real.log 2 / Real.pi) *
    w (alphaL / alphaD * Real.sqrt (Real.log 2))

/-- `voigt_peak2area` (crrls.py:1357-1378): the inverse conversion, built
from the same Faddeeva evaluation at the same argument. -/
noncomputable def voigt_peak2area (w : ℝ → ℝ) (peak alphaD alphaL : ℝ) : ℝ :=
  peak * alphaD / (Real.sqrt (Real.log 2 / Real.pi) *
    w (alphaL / alphaD * Real.sqrt (Real.log 2)))

/-! ## Optical-depth model (crrlpy/models/rrlmod.py) -/

/-- `itau_norad` (rrlmod.py:365-371): the approximate non-LTE integrated
optical depth.  `np.power(n, 2.)` and `np.power(Te, 5./2.)` are `rpow`. -/
noncomputable def itau_norad (n Te b dn mdn_ : ℝ) : ℝ :=
  -1.069e7 * dn * mdn_ * b * Real.exp (1.58e5 / (n ^ (2 : ℝ) * Te)) /
    Te ^ ((5 : ℝ) / 2)

/-- The value dispatch of `itau` (rrlmod.py:325-331) after the grid load:
`value='itau'` applies `itau_norad`, `value='bbnMdn'` returns `b·Δn·M(Δn)`,
anything else returns `b` unchanged. -/
noncomputable def itauValue (value : String) (n Te b dn mdn_ : ℝ) : ℝ :=
  if value = "itau" then itau_norad n Te b dn mdn_
  else if value = "bbnMdn" then b * dn * mdn_
  else b

/-- The closed-form optical-depth approximation exactly as the
specification states it:
`-1.069e7·Δn·M(Δn)·b_n·exp(1.58e5/(n²·Te))/Te^2.5`. -/
noncomputable def integrated_optical_depth_spec (n Te b dn m : ℝ) : ℝ :=
  -1.069e7 * dn * m * b * Real.exp (1.58e5 / (n ^ 2 * Te)) / Te ^ ((5 : ℝ) / 2)

/-! ## Results about the codec, `mdn` and the broadening coefficients -/

deriving instance DecidableEq for Except

/-- Interpolation below the first knot yields `none` (bounds error). -/
theorem interp1dLin_lt_head (l : List (ℚ × ℚ)) (x : ℚ) (h : ∀ p ∈ l, x < p.1) :
    interp1dLin l x = none := by
  induction l with
  | nil => rfl
  | cons hd tl ih =>
    obtain ⟨x0, y0⟩ := hd
    cases tl with
    | nil =>
      have hx0 : x < x0 := h (x0, y0) (by simp)
      simp [interp1dLin, ne_of_lt hx0]
    | cons hd2 tl2 =>
      obtain ⟨x1, y1⟩ := hd2
      have hx0 : x < x0 := h (x0, y0) (by simp)
      simp [interp1dLin, hx0]

/-- Interpolation above the last knot yields `none` (bounds error). -/
theorem interp1dLin_gt_last (l : List (ℚ × ℚ)) (x : ℚ) (h : ∀ p ∈ l, p.1 < x) :
    interp1dLin l x = none := by
  induction l with
  | nil => rfl
  | cons hd tl ih =>
    obtain ⟨x0, y0⟩ := hd
    cases tl with
    | nil =>
      have hx0 : x0 < x := h (x0, y0) (by simp)
      simp [interp1dLin, (ne_of_lt hx0).symm]
    | cons hd2 tl2 =>
      obtain ⟨x1, y1⟩ := hd2
      have hx0 : x0 < x := h (x0, y0) (by simp)
      have hx1 : x1 < x := h (x1, y1) (by simp)
      rw [interp1dLin]
      rw [if_neg (by exact not_lt.mpr (le_of_lt hx0)), if_neg (by exact not_le.mpr hx1)]
      exact ih fun p hp => h p (by simp [hp])

/-- C5: `pressure_broad_coefs` performs bounds-checked linear interpolation
over the fixed 30-point table: every temperature outside `[10, 30000]` K is
an out-of-domain error (`none`, modelling the raised `ValueError`), and at
the tabulated grid point `Te = 100` it returns exactly
`(-9.9613006, 5.3077770)`. -/
theorem pressure_broad_coefs_bounds_and_grid_point :
    (∀ Te : ℚ, Te < 10 ∨ 30000 < Te → pressure_broad_coefs Te = none) ∧
    pressure_broad_coefs 100 = some (-9.9613006, 5.3077770) := by
  constructor
  · intro Te h
    have ha : interp1dLin (teGrid.zip aTable) Te = none := by
      rcases h with h | h
      · exact interp1dLin_lt_head _ _ fun p hp => by
          have : (10 : ℚ) ≤ p.1 := by
            revert hp
            have : ∀ p ∈ teGrid.zip aTable, (10 : ℚ) ≤ p.1 := by
              with_unfolding_all decide
            exact fun hp => this p hp
          linarith
      · exact interp1dLin_gt_last _ _ fun p hp => by
          have : p.1 ≤ (30000 : ℚ) := by
            revert hp
            have : ∀ p ∈ teGrid.zip aTable, p.1 ≤ (30000 : ℚ) := by
              with_unfolding_all decide
            exact fun hp => this p hp
          linarith
    have hg : interp1dLin (teGrid.zip gammacTable) Te = none := by
      rcases h with h | h
      · exact interp1dLin_lt_head _ _ fun p hp => by
          have : (10 : ℚ) ≤ p.1 := by
            revert hp
            have : ∀ p ∈ teGrid.zip gammacTable, (10 : ℚ) ≤ p.1 := by
              with_unfolding_all decide
            exact fun hp => this p hp
          linarith
      · exact interp1dLin_gt_last _ _ fun p hp => by
          have : p.1 ≤ (30000 : ℚ) := by
            revert hp
            have : ∀ p ∈ teGrid.zip gammacTable, p.1 ≤ (30000 : ℚ) := by
              with_unfolding_all decide
            exact fun hp => this p hp
          linarith
    rw [pressure_broad_coefs, ha, hg]
  · norm_num [pressure_broad_coefs, interp1dLin, teGrid, aTable, gammacTable]

/-- C5 witness: an out-of-domain temperature (5 K) is rejected and the grid
point 100 K returns the exact tabulated pair. -/
theorem pressure_broad_coefs_bounds_and_grid_point_witness :
    ((5 : ℚ) < 10 ∨ (30000 : ℚ) < 5) ∧ pressure_broad_coefs 5 = none ∧
    pressure_broad_coefs 100 = some (-9.9613006, 5.3077770) :=
  ⟨Or.inl (by norm_num),
   pressure_broad_coefs_bounds_and_grid_point.1 5 (Or.inl (by norm_num)),
   pressure_broad_coefs_bounds_and_grid_point.2⟩

/-- C6 counterexample: the key `"2"` does not parse to two numeric tokens
(it is a single numeric token), yet `str2val` does not return the sentinel
`0` — the `aux[1]` access raises an uncaught `IndexError`. -/
theorem str2val_single_token_raises :
    str2val "2" = Except.error PyErr.indexError ∧ str2val "2" ≠ Except.ok 0 := by
  refine ⟨by with_unfolding_all decide, by with_unfolding_all decide⟩

/-- C6 (amended): a key containing a token that fails to parse as a float
returns the sentinel `0` (the `ValueError` is caught); but a key whose
tokens all parse yet number fewer than two raises an uncaught
`IndexError` instead of returning `0`. -/
theorem str2val_malformed_token_returns_zero (s : String)
    (h : ∃ t ∈ s.splitOn "d", pyFloat? t = none) : str2val s = Except.ok 0 := by
  obtain ⟨t, ht, hp⟩ := h
  have hany : ((s.splitOn "d").map pyFloat?).any (fun o => o.isNone) = true := by
    rw [List.any_eq_true]
    exact ⟨pyFloat? t, List.mem_map.mpr ⟨t, ht, rfl⟩, by rw [hp]; rfl⟩
  rw [str2val]
  simp only [hany, if_true]

/-- C6 witness: the fully non-numeric key `"abc"` returns the sentinel 0. -/
theorem str2val_malformed_token_returns_zero_witness :
    (∃ t ∈ "abc".splitOn "d", pyFloat? t = none) ∧ str2val "abc" = Except.ok 0 :=
  ⟨⟨"abc", by with_unfolding_all decide, by with_unfolding_all decide⟩,
   str2val_malformed_token_returns_zero "abc"
     ⟨"abc", by with_unfolding_all decide, by with_unfolding_all decide⟩⟩

set_option maxRecDepth 3000 in
/-- C7: the codec round-trips: `val2str 200 = "2d2"`, `str2val "2d2" = 200`,
and `str2val (val2str v) = v` for `v ∈ {1, 10, 0.05, 1500}`. -/
theorem codec_roundtrip :
    val2str 200 = "2d2" ∧ str2val "2d2" = Except.ok 200 ∧
    str2val (val2str 1) = Except.ok 1 ∧ str2val (val2str 10) = Except.ok 10 ∧
    str2val (val2str 0.05) = Except.ok 0.05 ∧
    str2val (val2str 1500) = Except.ok 1500 := by
  refine ⟨?_, ?_, ?_, ?_, ?_, ?_⟩ <;> with_unfolding_all decide

/-- C8: `mdn` returns exactly the tabulated `M(Δn)` for `Δn ∈ {1..5}` and
signals an error (the escaping `UnboundLocalError`, modelled as `none`) for
every other argument. -/
theorem mdn_table_and_domain :
    mdn 1 = some 0.1908 ∧ mdn 2 = some 0.02633 ∧ mdn 3 = some 0.008106 ∧
    mdn 4 = some 0.003492 ∧ mdn 5 = some 0.001812 ∧
    ∀ dn : ℚ, dn ≠ 1 → dn ≠ 2 → dn ≠ 3 → dn ≠ 4 → dn ≠ 5 → mdn dn = none := by
  refine ⟨by norm_num [mdn], by norm_num [mdn], by norm_num [mdn],
    by norm_num [mdn], by norm_num [mdn], ?_⟩
  intro dn h1 h2 h3 h4 h5
  simp [mdn, h1, h2, h3, h4, h5]

/-- C8 witness: `Δn = 6` is outside the table and yields no value. -/
theorem mdn_table_and_domain_witness :
    ((6 : ℚ) ≠ 1 ∧ (6 : ℚ) ≠ 2 ∧ (6 : ℚ) ≠ 3 ∧ (6 : ℚ) ≠ 4 ∧ (6 : ℚ) ≠ 5) ∧
    mdn 6 = none :=
  ⟨⟨by norm_num, by norm_num, by norm_num, by norm_num, by norm_num⟩,
   mdn_table_and_domain.2.2.2.2.2 6 (by norm_num) (by norm_num) (by norm_num)
     (by norm_num) (by norm_num)⟩

/-! ## Results about the line-shape and optical-depth functions -/

/-- The discriminant of `dv_minus_doppler` is `4·(0.2166 dV² + 0.06919716 dD²)`,
hence non-negative for every real input. -/
theorem dvDisc_nonneg (dV dD : ℝ) : 0 ≤ dvDisc dV dD := by
  unfold dvDisc
  nlinarith [sq_nonneg dV, sq_nonneg dD]

/-- The discriminant of `dv_minus_doppler2` is `0.2166 dV² + 0.06919716 dD²`,
hence non-negative for every real input. -/
theorem dv2Disc_nonneg (dV dD : ℝ) : 0 ≤ dv2Disc dV dD := by
  unfold dv2Disc
  nlinarith [sq_nonneg dV, sq_nonneg dD]

/-- C2 counterexample: the claim presupposes inputs with a negative
discriminant on which an `InvalidInputError` is signalled; no real input
produces a negative discriminant, so the guarded error path of
`dv_minus_doppler` (which would moreover return the scalar `0` after
printing, not raise) is unreachable. -/
theorem dvDisc_never_negative : ¬ ∃ dV dD : ℝ, dvDisc dV dD < 0 := by
  rintro ⟨dV, dD, h⟩
  exact absurd h (not_lt.mpr (dvDisc_nonneg dV dD))

/-- C2 (amended): for every real input the discriminants of both
implementations are non-negative, and neither `dv_minus_doppler` nor
`dv_minus_doppler2` ever takes the negative-discriminant branch (which
returns the bare sentinel `0` rather than raising an `InvalidInputError`):
a `(dL, ddL)` pair is always produced. -/
theorem dv_minus_doppler_never_sentinel :
    ∀ dV ddV dD ddD : ℝ,
      0 ≤ dvDisc dV dD ∧ 0 ≤ dv2Disc dV dD ∧
      dv_minus_doppler dV ddV dD ddD ≠ DvRes.zero ∧
      dv_minus_doppler2 dV ddV dD ddD ≠ DvRes.zero := by
  intro dV ddV dD ddD
  refine ⟨dvDisc_nonneg dV dD, dv2Disc_nonneg dV dD, ?_, ?_⟩
  · simp only [dv_minus_doppler]
    rw [if_neg (not_lt.mpr (dvDisc_nonneg dV dD))]
    split <;> simp
  · simp only [dv_minus_doppler2]
    rw [if_neg (not_lt.mpr (dv2Disc_nonneg dV dD))]
    split <;> simp

/-- C9: the Doppler-width uncertainty `ddD` has no influence on the result
of either implementation: both squared error terms are multiplied by `ddV`,
and `ddD` never occurs in a computation. -/
theorem dv_minus_doppler_ddD_noninterference :
    ∀ dV ddV dD d1 d2 : ℝ,
      dv_minus_doppler dV ddV dD d1 = dv_minus_doppler dV ddV dD d2 ∧
      dv_minus_doppler2 dV ddV dD d1 = dv_minus_doppler2 dV ddV dD d2 :=
  fun _ _ _ _ _ => ⟨rfl, rfl⟩

/-- C3: `voigt_peak2area ∘ voigt_peak` is the identity on the area: both
conversions evaluate the Faddeeva factor at the same argument
`αL/αD·√(ln 2)`, so the factor cancels exactly.  `w` models the external
`scipy.special.wofz` real part, nonvanishing at the evaluation point (true
of the actual Faddeeva function for `y ≥ 0`). -/
theorem voigt_peak_area_roundtrip (w : ℝ → ℝ) (A alphaD alphaL : ℝ)
    (hD : 0 < alphaD) (hL : 0 < alphaL)
    (hw : w (alphaL / alphaD * Real.sqrt (Real.log 2)) ≠ 0) :
    voigt_peak2area w (voigt_peak w A alphaD alphaL) alphaD alphaL = A := by
  unfold voigt_peak voigt_peak2area
  have hs : Real.sqrt (Real.log 2 / Real.pi) ≠ 0 :=
    ne_of_gt (Real.sqrt_pos.mpr (div_pos (Real.log_pos (by norm_num)) Real.pi_pos))
  set K := w (alphaL / alphaD * Real.sqrt (Real.log 2)) with hK
  set S := Real.sqrt (Real.log 2 / Real.pi) with hS
  field_simp
  ring

/-- C3 witness: the round trip at `A = 1`, `αD = 1`, `αL = 1/2` with the
constant-one Faddeeva stand-in. -/
theorem voigt_peak_area_roundtrip_witness :
    (0 : ℝ) < 1 ∧ (0 : ℝ) < 1 / 2 ∧
    (fun _ : ℝ => (1 : ℝ)) (1 / 2 / 1 * Real.sqrt (Real.log 2)) ≠ 0 ∧
    voigt_peak2area (fun _ => 1) (voigt_peak (fun _ => 1) 1 1 (1 / 2)) 1 (1 / 2) = 1 :=
  ⟨by norm_num, by norm_num, by norm_num,
   voigt_peak_area_roundtrip (fun _ => 1) 1 1 (1 / 2) (by norm_num) (by norm_num)
     (by norm_num)⟩

/-- C4: with `value = 'itau'` the dispatch of `itau` applies `itau_norad`,
which equals the closed-form
`-1.069e7·Δn·M(Δn)·b_n·exp(1.58e5/(n²·Te))/Te^2.5` of the specification,
with `M(Δn)` the `mdn` table value. -/
theorem itau_value_itau_formula (n Te b : ℝ) (dnn : ℕ) (m : ℚ)
    (hn : 0 < n) (hTe : 0 < Te) (h1 : 1 ≤ dnn) (h5 : dnn ≤ 5)
    (hm : mdn (dnn : ℚ) = some m) :
    itauValue "itau" n Te b (dnn : ℝ) (m : ℝ) =
      integrated_optical_depth_spec n Te b (dnn : ℝ) (m : ℝ) := by
  rw [itauValue, if_pos rfl, itau_norad, integrated_optical_depth_spec,
    Real.rpow_two]

/-- C4 witness: `n = 100`, `Te = 100`, `b = 1`, `Δn = 1`, `M(1) = 0.1908`. -/
theorem itau_value_itau_formula_witness :
    (0 : ℝ) < 100 ∧ (0 : ℝ) < 100 ∧ 1 ≤ 1 ∧ 1 ≤ 5 ∧
    mdn ((1 : ℕ) : ℚ) = some 0.1908 ∧
    itauValue "itau" 100 100 1 ((1 : ℕ) : ℝ) ((0.1908 : ℚ) : ℝ) =
      integrated_optical_depth_spec 100 100 1 ((1 : ℕ) : ℝ) ((0.1908 : ℚ) : ℝ) :=
  ⟨by norm_num, by norm_num, le_refl 1, by norm_num, by norm_num [mdn],
   itau_value_itau_formula 100 100 1 1 0.1908 (by norm_num) (by norm_num)
     (le_refl 1) (by norm_num) (by norm_num [mdn])⟩

/-- C10: for non-negative widths, the Voigt FWHM approximation dominates
both of its components (`0.5346 + √0.2166 > 1` gives domination over `dL`)
and is monotone non-decreasing in both arguments. -/
theorem voigt_fwhm_dominates_and_monotone :
    ∀ dD dL dD2 dL2 : ℝ, 0 ≤ dD → 0 ≤ dL →
      dD ≤ voigt_fwhm dD dL ∧ dL ≤ voigt_fwhm dD dL ∧
      (dD ≤ dD2 → dL ≤ dL2 → voigt_fwhm dD dL ≤ voigt_fwhm dD2 dL2) := by
  intro dD dL dD2 dL2 hD hL
  refine ⟨?_, ?_, ?_⟩
  · have h1 : Real.sqrt (dD ^ 2) ≤ Real.sqrt (0.2166 * dL ^ 2 + dD ^ 2) :=
      Real.sqrt_le_sqrt (by nlinarith [sq_nonneg dL])
    rw [Real.sqrt_sq hD] at h1
    unfold voigt_fwhm
    nlinarith
  · have h2 : Real.sqrt (0.2166 * dL ^ 2) ≤ Real.sqrt (0.2166 * dL ^ 2 + dD ^ 2) :=
      Real.sqrt_le_sqrt (by nlinarith [sq_nonneg dD])
    have h3 : Real.sqrt (0.2166 * dL ^ 2) = Real.sqrt 0.2166 * dL := by
      rw [Real.sqrt_mul (by norm_num), Real.sqrt_sq hL]
    have h4 : (0.4654 : ℝ) ≤ Real.sqrt 0.2166 :=
      (Real.le_sqrt (by norm_num) (by norm_num)).mpr (by norm_num)
    unfold voigt_fwhm
    nlinarith
  · intro hDD hLL
    unfold voigt_fwhm
    have hsq : Real.sqrt (0.2166 * dL ^ 2 + dD ^ 2) ≤
        Real.sqrt (0.2166 * dL2 ^ 2 + dD2 ^ 2) :=
      Real.sqrt_le_sqrt (by nlinarith)
    nlinarith

/-- C1 counterexample: at the specification's own example input
`(dV, ddV, dD, ddD) = (5, 1, 5, 0.5)` the two implementations do NOT return
identical `(dL, ddL)` pairs: both select the root `dL = 0`, but
`dv_minus_doppler` propagates `ddL = √(90.9913…)` while
`dv_minus_doppler2` propagates `ddL = √(187.9410…)`. -/
theorem dv_implementations_differ :
    dv_minus_doppler 5 1 5 0.5 ≠ dv_minus_doppler2 5 1 5 0.5 := by
  have hd1 : dvDisc 5 5 = 28.579716 := by unfold dvDisc; norm_num
  have hd2 : dv2Disc 5 5 = 7.144929 := by unfold dv2Disc; norm_num
  have hs1 : Real.sqrt 28.579716 = 5.346 := by
    rw [show (28.579716 : ℝ) = 5.346 ^ 2 by norm_num, Real.sqrt_sq (by norm_num)]
  have hs2 : Real.sqrt 7.144929 = 2.673 := by
    rw [show (7.144929 : ℝ) = 2.673 ^ 2 by norm_num, Real.sqrt_sq (by norm_num)]
  simp only [dv_minus_doppler, dv_minus_doppler2, hd1, hd2, hs1, hs2]
  norm_num
  rw [show (Real.sqrt 1351115037342577713034032409 /
      Real.sqrt 14848821400596838256250000 : ℝ) =
      Real.sqrt (1351115037342577713034032409 / 14848821400596838256250000) from
      (Real.sqrt_div (by norm_num) _).symm,
    show (Real.sqrt 446512418972450000000 / Real.sqrt 2375811424095494121 : ℝ) =
      Real.sqrt (446512418972450000000 / 2375811424095494121) from
      (Real.sqrt_div (by norm_num) _).symm]
  intro h
  have h2 := (Real.sqrt_inj (by positivity) (by positivity)).mp h
  norm_num at h2

/-- C1 (amended): for every input with `dV ≥ 0` the two implementations
select the same Lorentz root `dL` (the propagated uncertainties `ddL`
differ in general).  The two quadratic-root selections land on the same
root because `dv_minus_doppler`'s larger root never satisfies `dL_m < dV`,
while `dv_minus_doppler2`'s smaller root always does unless `dV = 0` and
the discriminant vanishes, in which case both roots coincide at `0`. -/
theorem dv_minus_doppler_dL_agree :
    ∀ dV ddV dD ddD : ℝ, 0 ≤ dV →
      (dv_minus_doppler dV ddV dD ddD).dL? = (dv_minus_doppler2 dV ddV dD ddD).dL? := by
  intro dV ddV dD ddD hV
  have hnn2 : 0 ≤ dv2Disc dV dD := dv2Disc_nonneg dV dD
  have hnn1 : 0 ≤ dvDisc dV dD := dvDisc_nonneg dV dD
  have hs0 : 0 ≤ Real.sqrt (dv2Disc dV dD) := Real.sqrt_nonneg _
  have hd4 : dvDisc dV dD = 4 * dv2Disc dV dD := by unfold dvDisc dv2Disc; ring
  have hsqrt : Real.sqrt (dvDisc dV dD) = 2 * Real.sqrt (dv2Disc dV dD) := by
    rw [hd4, show (4 : ℝ) * dv2Disc dV dD = 2 ^ 2 * dv2Disc dV dD by norm_num,
      Real.sqrt_mul (by norm_num : (0:ℝ) ≤ 2 ^ 2), Real.sqrt_sq (by norm_num : (0:ℝ) ≤ 2)]
  have hsq : Real.sqrt (dv2Disc dV dD) ^ 2 = dv2Disc dV dD := Real.sq_sqrt hnn2
  have hval : dv2Disc dV dD = 0.2166 * dV ^ 2 + (0.5346 * 0.5346 - 0.2166) * dD ^ 2 := by
    unfold dv2Disc; ring
  simp only [dv_minus_doppler, dv_minus_doppler2, hsqrt]
  rw [if_neg (not_lt.mpr hnn1), if_neg (not_lt.mpr hnn2)]
  have hc1 : ¬ ((-2 * 0.5346 * dV - 2 * Real.sqrt (dv2Disc dV dD)) /
      (2 * (0.2166 - 0.5346 * 0.5346)) < dV) := by
    rw [not_lt, le_div_iff_of_neg (by norm_num : (2 * (0.2166 - 0.5346 * 0.5346) : ℝ) < 0)]
    nlinarith
  rw [if_neg hc1]
  by_cases hc2 : (0.5346 * dV - Real.sqrt (dv2Disc dV dD)) / (0.5346 * 0.5346 - 0.2166) < dV
  · rw [if_pos hc2]
    simp only [DvRes.dL?, Option.some.injEq]
    rw [div_eq_div_iff (by norm_num) (by norm_num)]
    ring
  · rw [if_neg hc2]
    simp only [DvRes.dL?, Option.some.injEq]
    rw [not_lt, le_div_iff (by norm_num : (0:ℝ) < 0.5346 * 0.5346 - 0.2166)] at hc2
    have hsle : Real.sqrt (dv2Disc dV dD) ≤ 0.46540284 * dV := by nlinarith
    have hdV2 : dV ^ 2 ≤ 0 := by
      nlinarith [mul_self_le_mul_self hs0 hsle, sq_nonneg dD]
    have hdV0 : dV = 0 := sq_eq_zero_iff.mp (le_antisymm hdV2 (sq_nonneg dV))
    have hsz : Real.sqrt (dv2Disc dV dD) = 0 :=
      le_antisymm (by nlinarith) hs0
    rw [hsz, hdV0]
    norm_num

/-- C1 witness: the root agreement at the specification's example input. -/
theorem dv_minus_doppler_dL_agree_witness :
    (0 : ℝ) ≤ 5 ∧
    (dv_minus_doppler 5 1 5 0.5).dL? = (dv_minus_doppler2 5 1 5 0.5).dL? :=
  ⟨by norm_num, dv_minus_doppler_dL_agree 5 1 5 0.5 (by norm_num)⟩

/-- C10 witness: the bounds and monotonicity at `(dD, dL) = (3, 4)` and
`(dD2, dL2) = (4, 5)`. -/
theorem voigt_fwhm_dominates_and_monotone_witness :
    (0 : ℝ) ≤ 3 ∧ (0 : ℝ) ≤ 4 ∧
    (3 ≤ voigt_fwhm 3 4 ∧ 4 ≤ voigt_fwhm 3 4 ∧
      ((3 : ℝ) ≤ 4 → (4 : ℝ) ≤ 5 → voigt_fwhm 3 4 ≤ voigt_fwhm 4 5)) :=
  ⟨by norm_num, by norm_num,
   voigt_fwhm_dominates_and_monotone 3 4 4 5 (by norm_num) (by norm_num)⟩

end CRRLpy
